import Mathlib

/-!
# Capacity adaptation of the yarn node resource manager

A shallow embedding of `pkg/caelus/resource/resource_yarn.go`.

Modelling conventions:

* The receiver `*yarnClient` is a record that is passed in and returned. Its
  collaborators (the nodemanager control plane `ginit`, the resource adapters)
  are state transformers over an abstract collaborator state `σ`, so that they
  may answer differently from one call to the next and may fail.
* Every call that leaves the engine (control plane, adapters, alarm, metrics,
  checkpoint, sleep) is appended to `trace`, in program order.
* `int64` quantities (millicores, bytes, megabytes) are integers, and Go's `/`
  on them is truncating division; the counts of one node stay far below `2^63`
  and no wrap-around is modelled. `float64` quantities of the hysteresis policy
  are exact rationals. `time.Time` is an integer number of nanoseconds, `Add`
  is `+` and `After` is `>`.
* Logging through `klog` has no effect on the state and is left out.
-/

namespace Caelus

/-- Go `error` values of the collaborators, identified by their message. -/
abbrev Error := String

/-- Instants and durations, `time.Time` and `time.Duration`, in nanoseconds. -/
abbrev Time := Int

/-- Capacity of the nodemanager, `global.NMCapacity`. -/
structure NMCapacity where
  Vcores : Int
  Millcores : Int
  MemoryMB : Int
deriving DecidableEq, Repr

/-- The two entries of a `v1.ResourceList` that the engine reads:
`res.Cpu().MilliValue()` and `res.Memory().Value()` (bytes). -/
structure ResourceList where
  cpuMilli : Int
  memory : Int
deriving DecidableEq, Repr

/-- Hysteresis policy of one resource kind, `types.RangeState`. -/
structure RangeState where
  Min : ℚ
  Max : ℚ
  Ratio : ℚ
deriving DecidableEq, Repr

/-- Hysteresis policy, `types.RangeResource`. -/
structure RangeResource where
  CPUMilli : RangeState
  MemMB : RangeState
deriving DecidableEq, Repr

/-- The part of `types.YarnConfig` read by the engine, together with the unit
constants `types.CpuUnit` and `types.MemUnit`, which are declared outside the
file and are taken as parameters. -/
structure YarnConfig where
  CapacityIncInterval : Time
  ResourceRange : RangeResource
  CpuUnit : Int
  MemUnit : Int

/-- Calls that leave the engine, in the order they are recorded. -/
inductive Event where
  | resourceAdapt (idx : Nat) (reachMin : Bool)
  | getCapacity
  | getMinCapacity
  | ensureCapacity (expectCap : NMCapacity) (conflictingResources : List String)
      (isDecrease : Bool)
  | getStatus
  | startNodemanager
  | stopNodemanager
  | disableSchedule
  | enableSchedule
  | sendAlarm (msg : String)
  | nodeScheduleDisabled (v : Nat)
  | nodeResourceMetricsReset (res : ResourceList)
  | storeCheckpoint (disabled : Bool)
  | sleep (d : Time)
deriving DecidableEq, Repr

/-- One stage of the pipeline, `yarn.ResourceAdapter`: `ResourceAdapt` rewrites
the resource list in place and reports whether the minimum was reached. -/
structure ResourceAdapter (σ : Type) where
  ResourceAdapt : ResourceList → σ → (ResourceList × Bool) × σ

/-- The nodemanager control plane, `yarn.GInitInterface`, restricted to the
methods the engine calls. A command answers `none` for a nil error. -/
structure GInitInterface (σ : Type) where
  GetCapacity : σ → Except Error NMCapacity × σ
  GetMinCapacity : σ → NMCapacity × σ
  EnsureCapacity : NMCapacity → List String → Bool → σ → Option Error × σ
  GetStatus : σ → Except Error Bool × σ
  StartNodemanager : σ → Option Error × σ
  StopNodemanager : σ → Option Error × σ
  DisableSchedule : σ → Option Error × σ
  EnableSchedule : σ → Option Error × σ

/-- The engine, `yarnClient`. `world` is the state of the collaborators and
`trace` the calls issued so far. -/
structure yarnClient (σ : Type) where
  YarnConfig : YarnConfig
  scheduleDisabled : Bool
  ginit : GInitInterface σ
  lastCapIncTimestamp : Time
  resourceHandlers : List (ResourceAdapter σ)
  world : σ
  trace : List Event

/-- Outcome of the adapter loop at the head of `beCapacity`. -/
structure AdaptResult (σ : Type) where
  reachMin : Bool
  res : ResourceList
  world : σ
  trace : List Event

/-- The loop `for _, rh := range y.resourceHandlers` of `beCapacity`, with its
`break` on the first adapter that reports the minimum. `idx` is the position of
the head of `hs` in the configured list. -/
def runHandlers {σ : Type} :
    List (ResourceAdapter σ) → Nat → ResourceList → σ → List Event → AdaptResult σ
  | [], _, res, w, tr => ⟨false, res, w, tr⟩
  | rh :: rest, idx, res, w, tr =>
    let r := rh.ResourceAdapt res w
    if r.1.2 then
      ⟨true, r.1.1, r.2, tr ++ [Event.resourceAdapt idx true]⟩
    else
      runHandlers rest (idx + 1) r.1.1 r.2 (tr ++ [Event.resourceAdapt idx false])

/-- The function `getRangeResource`: the hysteresis band around the current capacity. -/
def getRangeResource (resRange : RangeResource) (cap : NMCapacity) : ℚ × ℚ :=
  if resRange.CPUMilli.Ratio + resRange.MemMB.Ratio = 0 then (0, 0)
  else
    let rangeCPU := (cap.Millcores : ℚ) * resRange.CPUMilli.Ratio
    let rangeCPU :=
      if resRange.CPUMilli.Min ≠ 0 ∧ rangeCPU < resRange.CPUMilli.Min then resRange.CPUMilli.Min
      else rangeCPU
    let rangeCPU := if rangeCPU > resRange.CPUMilli.Max then resRange.CPUMilli.Max else rangeCPU
    let rangeMem := (cap.MemoryMB : ℚ) * resRange.MemMB.Ratio
    let rangeMem :=
      if resRange.MemMB.Min ≠ 0 ∧ rangeMem < resRange.MemMB.Min then resRange.MemMB.Min
      else rangeMem
    let rangeMem := if rangeMem > resRange.MemMB.Max then resRange.MemMB.Max else rangeMem
    (rangeCPU, rangeMem)

/-- Outcome of `beCapacity`: the two returned booleans, the resource list as the
adapters left it, and the engine afterwards. -/
structure Decision (σ : Type) where
  capacityChanged : Bool
  capacityIncrease : Bool
  res : ResourceList
  y : yarnClient σ

/-- The method `yarnClient.beCapacity`. -/
def beCapacity {σ : Type} (y : yarnClient σ) (res : ResourceList) (conflicting : Bool) :
    Decision σ :=
  let a := runHandlers y.resourceHandlers 0 res y.world y.trace
  if conflicting then
    ⟨true, false, a.res, { y with world := a.world, trace := a.trace }⟩
  else
    let g := y.ginit.GetCapacity a.world
    let tr := a.trace ++ [Event.getCapacity]
    match g.1 with
    | .error _ => ⟨true, true, a.res, { y with world := g.2, trace := tr }⟩
    | .ok cap =>
      if a.reachMin then
        let m := y.ginit.GetMinCapacity g.2
        let minCap := m.1
        let y1 := { y with world := m.2, trace := tr ++ [Event.getMinCapacity] }
        if cap.Vcores = minCap.Vcores ∨ cap.Millcores = minCap.Millcores
            ∨ cap.MemoryMB = minCap.MemoryMB then
          ⟨false, false, a.res, y1⟩
        else
          ⟨true, false, a.res, y1⟩
      else
        let y1 := { y with world := g.2, trace := tr }
        let cpu := a.res.cpuMilli
        let memMb := Int.tdiv a.res.memory y.YarnConfig.MemUnit
        let rg := getRangeResource y.YarnConfig.ResourceRange cap
        if |((cpu - cap.Millcores : Int) : ℚ)| ≤ rg.1
            ∧ |((memMb - cap.MemoryMB : Int) : ℚ)| ≤ rg.2 then
          ⟨false, false, a.res, y1⟩
        else if cpu > cap.Millcores ∧ memMb > cap.MemoryMB then
          ⟨true, true, a.res, y1⟩
        else
          ⟨true, false, a.res, y1⟩

/-- The method `yarnClient.DisableOfflineSchedule`; the first component is the
returned error, `none` for nil. -/
def DisableOfflineSchedule {σ : Type} (y : yarnClient σ) : Option Error × yarnClient σ :=
  if y.scheduleDisabled then (none, y)
  else
    let r := y.ginit.DisableSchedule y.world
    let tr := y.trace ++ [Event.sendAlarm "schedule is closing", Event.disableSchedule]
    match r.1 with
    | some err => (some err, { y with world := r.2, trace := tr })
    | none =>
      (none, { y with
        scheduleDisabled := true
        world := r.2
        trace := tr ++ [Event.nodeScheduleDisabled 1, Event.storeCheckpoint true] })

/-- The method `yarnClient.EnableOfflineSchedule`. -/
def EnableOfflineSchedule {σ : Type} (y : yarnClient σ) : Option Error × yarnClient σ :=
  if !y.scheduleDisabled then (none, y)
  else
    let r := y.ginit.EnableSchedule y.world
    let tr := y.trace ++ [Event.sendAlarm "schedule is opening", Event.enableSchedule]
    match r.1 with
    | some err => (some err, { y with world := r.2, trace := tr })
    | none =>
      (none, { y with
        scheduleDisabled := false
        world := r.2
        trace := tr ++ [Event.nodeScheduleDisabled 0, Event.storeCheckpoint false] })

/-- Outcome of `updateCapacity`: the returned pair, the resource list as the
adapters left it, and the engine afterwards. -/
structure UpdateResult (σ : Type) where
  restarted : Bool
  err : Option Error
  res : ResourceList
  y : yarnClient σ

/-- The capacity `expectCap` that `updateCapacity` hands to `EnsureCapacity`:
vcores and megabytes by integer division, millicores left at zero. -/
def expectCap (cfg : YarnConfig) (res : ResourceList) : NMCapacity :=
  { Vcores := Int.tdiv res.cpuMilli cfg.CpuUnit
    Millcores := 0
    MemoryMB := Int.tdiv res.memory cfg.MemUnit }

/-- The method `yarnClient.updateCapacity`. `now₁` is the reading of `time.Now()`
in the throttle test and `now₂` the later reading stored after the capacity has
been ensured. -/
def updateCapacity {σ : Type} (y : yarnClient σ) (res : ResourceList)
    (conflictingResources : List String) (now₁ now₂ : Time) : UpdateResult σ :=
  let d := beCapacity y res (decide (conflictingResources.length > 0))
  let y1 := { d.y with trace := d.y.trace ++ [Event.nodeResourceMetricsReset d.res] }
  if !d.capacityChanged then ⟨false, none, d.res, y1⟩
  else
    let expectCap := expectCap y.YarnConfig d.res
    if d.capacityIncrease then
      if y1.lastCapIncTimestamp + y.YarnConfig.CapacityIncInterval > now₁ then
        ⟨false, none, d.res, y1⟩
      else
        let e := y1.ginit.EnsureCapacity expectCap conflictingResources false y1.world
        ⟨false, none, d.res, { y1 with
          world := e.2
          trace := y1.trace ++ [Event.ensureCapacity expectCap conflictingResources false]
          lastCapIncTimestamp := now₂ }⟩
    else
      let e := y1.ginit.EnsureCapacity expectCap conflictingResources true y1.world
      ⟨false, none, d.res, { y1 with
        world := e.2
        trace := y1.trace ++ [Event.ensureCapacity expectCap conflictingResources true] }⟩

/-- The grace interval of `startAndCheckNMProcess`, ten seconds. -/
def waiting : Time := 10 * 1000000000

/-- The alarm of `startAndCheckNMProcess`, with the grace interval printed as `10s`. -/
def notRunningMsg : String := "nodemanager restart successfully, while not running after 10s"

/-- The method `yarnClient.startAndCheckNMProcess`; `checkNMProcessReady` is
`y.ginit.GetStatus`. -/
def startAndCheckNMProcess {σ : Type} (y : yarnClient σ) : yarnClient σ :=
  let s1 := y.ginit.GetStatus y.world
  let y1 := { y with world := s1.2, trace := y.trace ++ [Event.getStatus] }
  match s1.1 with
  | .error _ => y1
  | .ok running =>
    if !running then
      let st := y.ginit.StartNodemanager s1.2
      let y2 := { y1 with world := st.2, trace := y1.trace ++ [Event.startNodemanager] }
      match st.1 with
      | some _ => y2
      | none =>
        let s2 := y.ginit.GetStatus st.2
        let y3 := { y2 with
          world := s2.2
          trace := y2.trace ++ [Event.sleep waiting, Event.getStatus] }
        match s2.1 with
        | .error _ => y3
        | .ok running2 =>
          if !running2 then { y3 with trace := y3.trace ++ [Event.sendAlarm notRunningMsg] }
          else y3
    else y1

/-- The method `yarnClient.AdaptAndUpdateOfflineResource`, with the two clock
readings of `updateCapacity`. -/
def AdaptAndUpdateOfflineResource {σ : Type} (y : yarnClient σ) (offlineList : ResourceList)
    (conflictingResources : List String) (now₁ now₂ : Time) : Option Error × yarnClient σ :=
  let u := updateCapacity y offlineList conflictingResources now₁ now₂
  let y1 :=
    match u.err with
    | some _ => u.y
    | none =>
      if u.restarted then
        let s := u.y.ginit.StopNodemanager u.y.world
        { u.y with world := s.2, trace := u.y.trace ++ [Event.stopNodemanager] }
      else u.y
  (none, startAndCheckNMProcess y1)

/-- The calls recorded after `before` in the longer trace `after`. -/
def emitted (before after : List Event) : List Event := after.drop before.length

/-- Recognises an invocation of a resource adapter. -/
def Event.isResourceAdapt : Event → Bool
  | .resourceAdapt _ _ => true
  | _ => false

/-- Recognises the control plane's `EnsureCapacity`. -/
def Event.isEnsureCapacity : Event → Bool
  | .ensureCapacity _ _ _ => true
  | _ => false

/-- Recognises the control plane's `EnsureCapacity` with the given `isDecrease`. -/
def Event.isEnsureCapacityWith (isDecrease : Bool) : Event → Bool
  | .ensureCapacity _ _ d => d == isDecrease
  | _ => false

/-- Recognises the control plane's `GetStatus`. -/
def Event.isGetStatus : Event → Bool
  | .getStatus => true
  | _ => false

/-- Recognises the control plane's `StartNodemanager`. -/
def Event.isStartNodemanager : Event → Bool
  | .startNodemanager => true
  | _ => false

/-- Recognises an alarm. -/
def Event.isSendAlarm : Event → Bool
  | .sendAlarm _ => true
  | _ => false

/-- Recognises a checkpoint write. -/
def Event.isStoreCheckpoint : Event → Bool
  | .storeCheckpoint _ => true
  | _ => false

/-- Recognises the control plane's `StopNodemanager`. -/
def Event.isStopNodemanager : Event → Bool
  | .stopNodemanager => true
  | _ => false

/-- The resource list and the collaborator state after the first `n` adapters
of the list have each been applied once, in list order, to `res` and `w`. -/
def adaptedAfter {σ : Type} :
    List (ResourceAdapter σ) → Nat → ResourceList → σ → ResourceList × σ
  | [], _, res, w => (res, w)
  | _ :: _, 0, res, w => (res, w)
  | rh :: rest, n + 1, res, w =>
    adaptedAfter rest n (rh.ResourceAdapt res w).1.1 (rh.ResourceAdapt res w).2

/-- The answer `reachedMinimum` of the adapter at position `i` of the list, applied
to what the adapters before it have made of `res` and `w`; `false` past the end
of the list. -/
def adapterAnswer {σ : Type} (hs : List (ResourceAdapter σ)) (i : Nat) (res : ResourceList)
    (w : σ) : Bool :=
  match hs[i]? with
  | some rh => (rh.ResourceAdapt (adaptedAfter hs i res w).1 (adaptedAfter hs i res w).2).1.2
  | none => false

/-- Reference clamp of the band: `x` brought into `[lo, hi]`. -/
def clampRange (x lo hi : ℚ) : ℚ := max lo (min x hi)

/-- Reference definition of the hysteresis band, following the specification:
`(0, 0)` when the cpu ratio and the memory ratio are both zero, and otherwise
`clamp(capacity * ratio, min, max)` for cpu and for memory. -/
def getRangeResourceSpec (resRange : RangeResource) (cap : NMCapacity) : ℚ × ℚ :=
  if resRange.CPUMilli.Ratio = 0 ∧ resRange.MemMB.Ratio = 0 then (0, 0)
  else
    (clampRange ((cap.Millcores : ℚ) * resRange.CPUMilli.Ratio)
        resRange.CPUMilli.Min resRange.CPUMilli.Max,
     clampRange ((cap.MemoryMB : ℚ) * resRange.MemMB.Ratio)
        resRange.MemMB.Min resRange.MemMB.Max)

/-- A control plane without state of its own: it reports `cap` as the current
capacity and `minCap` as the minimum, reports the process as running and accepts
every command. -/
def steadyGInit (cap : Except Error NMCapacity) (minCap : NMCapacity) : GInitInterface Unit where
  GetCapacity := fun w => (cap, w)
  GetMinCapacity := fun w => (minCap, w)
  EnsureCapacity := fun _ _ _ w => (none, w)
  GetStatus := fun w => (.ok true, w)
  StartNodemanager := fun w => (none, w)
  StopNodemanager := fun w => (none, w)
  DisableSchedule := fun w => (none, w)
  EnableSchedule := fun w => (none, w)

/-- A control plane over a process that is down and stays down: the status is
"not running", the commands that act on the process or on scheduling answer
`startErr`, and the capacity is reported as by `steadyGInit`. -/
def downGInit (cap : Except Error NMCapacity) (minCap : NMCapacity) (startErr : Option Error) :
    GInitInterface Unit where
  GetCapacity := fun w => (cap, w)
  GetMinCapacity := fun w => (minCap, w)
  EnsureCapacity := fun _ _ _ w => (none, w)
  GetStatus := fun w => (.ok false, w)
  StartNodemanager := fun w => (startErr, w)
  StopNodemanager := fun w => (startErr, w)
  DisableSchedule := fun w => (startErr, w)
  EnableSchedule := fun w => (startErr, w)

/-- An adapter that leaves the resource list as it is and answers `b`. -/
def constAdapter (b : Bool) : ResourceAdapter Unit where
  ResourceAdapt := fun res w => ((res, b), w)

/-- A policy with ratio `1/10` for cpu and memory, no lower bound and a wide upper bound. -/
def tenPercentRange : RangeResource where
  CPUMilli := { Min := 0, Max := 100000, Ratio := 1 / 10 }
  MemMB := { Min := 0, Max := 100000, Ratio := 1 / 10 }

/-- An engine over `steadyGInit` with the policy `tenPercentRange`, a growth
interval of one minute and the units `1000` millicores and `2^20` bytes. -/
def sampleClient (cap : Except Error NMCapacity) (minCap : NMCapacity)
    (handlers : List (ResourceAdapter Unit)) : yarnClient Unit where
  YarnConfig :=
    { CapacityIncInterval := 60000000000, ResourceRange := tenPercentRange,
      CpuUnit := 1000, MemUnit := 1048576 }
  scheduleDisabled := false
  ginit := steadyGInit cap minCap
  lastCapIncTimestamp := 0
  resourceHandlers := handlers
  world := ()
  trace := []

/-- The engine `sampleClient` over the control plane `downGInit`. -/
def downClient (startErr : Option Error) (disabled : Bool) : yarnClient Unit :=
  { sampleClient (.ok ⟨4, 4000, 8192⟩) ⟨1, 1000, 1024⟩ [] with
    ginit := downGInit (.ok ⟨4, 4000, 8192⟩) ⟨1, 1000, 1024⟩ startErr
    scheduleDisabled := disabled }

/-- The sample engine at the capacity 4000m and 8192MB, with one adapter that
never reports the minimum. -/
def growthClient : yarnClient Unit :=
  sampleClient (.ok ⟨4, 4000, 8192⟩) ⟨1, 1000, 1024⟩ [constAdapter false]

/-- A candidate above the capacity of `growthClient` on cpu and on memory, and
outside its band: 5000m and 10000MB. -/
def growthRes : ResourceList := ⟨5000, 10000 * 1048576⟩

/-- C1: whatever the allocation, the adapters and the answers of the control
plane, `beCapacity` called with `conflicting = true` returns
`capacityChanged = true` and `capacityIncrease = false`. -/
theorem beCapacity_conflicting {σ : Type} (y : yarnClient σ) (res : ResourceList) :
    (beCapacity y res true).capacityChanged = true
      ∧ (beCapacity y res true).capacityIncrease = false := by
  simp [beCapacity]

/-- C2: without conflict, when no adapter reported the minimum and `GetCapacity`
answered `cap`, a candidate whose cpu and memory both differ from `cap` by no
more than the band of `getRangeResource` gives `capacityChanged = false`. -/
theorem beCapacity_within_range {σ : Type} (y : yarnClient σ) (res : ResourceList)
    (cap : NMCapacity)
    (hmin : (runHandlers y.resourceHandlers 0 res y.world y.trace).reachMin = false)
    (hcap : (y.ginit.GetCapacity
      (runHandlers y.resourceHandlers 0 res y.world y.trace).world).1 = .ok cap)
    (hcpu : |(((runHandlers y.resourceHandlers 0 res y.world y.trace).res.cpuMilli
      - cap.Millcores : Int) : ℚ)| ≤ (getRangeResource y.YarnConfig.ResourceRange cap).1)
    (hmem : |((Int.tdiv (runHandlers y.resourceHandlers 0 res y.world y.trace).res.memory
      y.YarnConfig.MemUnit - cap.MemoryMB : Int) : ℚ)|
        ≤ (getRangeResource y.YarnConfig.ResourceRange cap).2) :
    (beCapacity y res false).capacityChanged = false := by
  simp only [beCapacity, hcap, hmin, Bool.false_eq_true, if_false]
  rw [if_pos ⟨hcpu, hmem⟩]

/-- The example of C2: current capacity 4000m and 8192MB, ratio 0.1, candidate
4300m and 8500MB. The band is 400m and 819.2MB and the capacity is not changed. -/
theorem beCapacity_within_range_witness :
    getRangeResource tenPercentRange ⟨4, 4000, 8192⟩ = (400, 4096 / 5)
      ∧ (beCapacity (sampleClient (.ok ⟨4, 4000, 8192⟩) ⟨1, 1000, 1024⟩ [constAdapter false])
          ⟨4300, 8500 * 1048576⟩ false).capacityChanged = false :=
  ⟨by simp [getRangeResource, tenPercentRange]; norm_num,
   beCapacity_within_range
    (sampleClient (.ok ⟨4, 4000, 8192⟩) ⟨1, 1000, 1024⟩ [constAdapter false])
    ⟨4300, 8500 * 1048576⟩ ⟨4, 4000, 8192⟩ (by rfl) (by rfl)
    (by simp [runHandlers, constAdapter, sampleClient, getRangeResource, tenPercentRange]
        norm_num [abs_le])
    (by simp [runHandlers, constAdapter, sampleClient, getRangeResource, tenPercentRange]
        norm_num [abs_le, Int.tdiv])⟩

/-- C3, evaluated on the code: an adapter reported the minimum, there is no
conflict, and the current capacity (4 vcores, 4000m, 1024MB) differs from the
minimum capacity (1 vcore, 1000m, 1024MB) in vcores and millicores; the two agree
on memory alone, and `beCapacity` answers `capacityChanged = false`. -/
theorem beCapacity_reachMin_one_field_equal :
    (runHandlers (sampleClient (.ok ⟨4, 4000, 1024⟩) ⟨1, 1000, 1024⟩
        [constAdapter true]).resourceHandlers 0 ⟨1000, 1024 * 1048576⟩ () []).reachMin = true
      ∧ (⟨4, 4000, 1024⟩ : NMCapacity) ≠ ⟨1, 1000, 1024⟩
      ∧ (beCapacity (sampleClient (.ok ⟨4, 4000, 1024⟩) ⟨1, 1000, 1024⟩ [constAdapter true])
          ⟨1000, 1024 * 1048576⟩ false).capacityChanged = false
      ∧ (beCapacity (sampleClient (.ok ⟨4, 4000, 1024⟩) ⟨1, 1000, 1024⟩ [constAdapter true])
          ⟨1000, 1024 * 1048576⟩ false).capacityIncrease = false := by
  refine ⟨by rfl, by decide, by rfl, by rfl⟩

/-- C8: without conflict, when no adapter reported the minimum, `GetCapacity`
answered `cap` and the candidate is outside the band of `getRangeResource` on cpu
or on memory, `beCapacity` returns `capacityChanged = true`, and
`capacityIncrease = true` exactly when the candidate exceeds `cap` on cpu and on
memory. -/
theorem beCapacity_outside_range {σ : Type} (y : yarnClient σ) (res : ResourceList)
    (cap : NMCapacity)
    (hmin : (runHandlers y.resourceHandlers 0 res y.world y.trace).reachMin = false)
    (hcap : (y.ginit.GetCapacity
      (runHandlers y.resourceHandlers 0 res y.world y.trace).world).1 = .ok cap)
    (hout : (getRangeResource y.YarnConfig.ResourceRange cap).1
        < |(((runHandlers y.resourceHandlers 0 res y.world y.trace).res.cpuMilli
          - cap.Millcores : Int) : ℚ)|
      ∨ (getRangeResource y.YarnConfig.ResourceRange cap).2
        < |((Int.tdiv (runHandlers y.resourceHandlers 0 res y.world y.trace).res.memory
          y.YarnConfig.MemUnit - cap.MemoryMB : Int) : ℚ)|) :
    (beCapacity y res false).capacityChanged = true
      ∧ ((beCapacity y res false).capacityIncrease = true
        ↔ (runHandlers y.resourceHandlers 0 res y.world y.trace).res.cpuMilli > cap.Millcores
          ∧ Int.tdiv (runHandlers y.resourceHandlers 0 res y.world y.trace).res.memory
            y.YarnConfig.MemUnit > cap.MemoryMB) := by
  have hnot : ¬ (|(((runHandlers y.resourceHandlers 0 res y.world y.trace).res.cpuMilli
          - cap.Millcores : Int) : ℚ)| ≤ (getRangeResource y.YarnConfig.ResourceRange cap).1
      ∧ |((Int.tdiv (runHandlers y.resourceHandlers 0 res y.world y.trace).res.memory
          y.YarnConfig.MemUnit - cap.MemoryMB : Int) : ℚ)|
        ≤ (getRangeResource y.YarnConfig.ResourceRange cap).2) := by
    rintro ⟨h1, h2⟩
    rcases hout with h | h
    · exact absurd h1 (not_le.mpr h)
    · exact absurd h2 (not_le.mpr h)
  simp only [beCapacity, hcap, hmin, Bool.false_eq_true, if_false]
  rw [if_neg hnot]
  split <;> simp_all

/-- The example of C8: the candidate 5000m and 7000MB against the current
capacity 4000m and 8192MB exceeds it on cpu only: changed, not an increase. -/
theorem beCapacity_outside_range_witness :
    (beCapacity (sampleClient (.ok ⟨4, 4000, 8192⟩) ⟨1, 1000, 1024⟩ [constAdapter false])
        ⟨5000, 7000 * 1048576⟩ false).capacityChanged = true
      ∧ (beCapacity (sampleClient (.ok ⟨4, 4000, 8192⟩) ⟨1, 1000, 1024⟩ [constAdapter false])
        ⟨5000, 7000 * 1048576⟩ false).capacityIncrease = false := by
  have h := beCapacity_outside_range
    (sampleClient (.ok ⟨4, 4000, 8192⟩) ⟨1, 1000, 1024⟩ [constAdapter false])
    ⟨5000, 7000 * 1048576⟩ ⟨4, 4000, 8192⟩ (by rfl) (by rfl)
    (Or.inl (by
      simp [runHandlers, constAdapter, sampleClient, getRangeResource, tenPercentRange]
      norm_num))
  refine ⟨h.1, ?_⟩
  have h2 := h.2
  simp only [runHandlers, constAdapter, sampleClient] at h2
  norm_num [Int.tdiv] at h2
  exact h2

/-- C7 as stated fails on three kinds of policy. With cpu ratio `1/10` and memory
ratio `-1/10` the ratios sum to zero and the code returns `(0, 0)` although neither
ratio is zero, where the reference gives a cpu band of `400`. With a lower bound
`100` above the upper bound `0` the code returns the cpu band `0`, which is below
the lower bound. With no lower bound and a negative capacity the code returns the
negative cpu band `-400`. -/
theorem getRangeResource_ne_spec :
    getRangeResource ⟨⟨0, 100000, 1 / 10⟩, ⟨0, 100000, -1 / 10⟩⟩ ⟨4, 4000, 8192⟩
        ≠ getRangeResourceSpec ⟨⟨0, 100000, 1 / 10⟩, ⟨0, 100000, -1 / 10⟩⟩ ⟨4, 4000, 8192⟩
      ∧ (getRangeResource ⟨⟨100, 0, 1 / 10⟩, ⟨0, 100000, 1 / 10⟩⟩ ⟨4, 4000, 8192⟩).1 < 100
      ∧ (getRangeResource ⟨⟨0, 100000, 1 / 10⟩, ⟨0, 100000, 1 / 10⟩⟩ ⟨-4, -4000, 8192⟩).1 < 0 := by
  refine ⟨?_, ?_, ?_⟩
  · intro h
    have h1 := congrArg Prod.fst h
    simp [getRangeResource, getRangeResourceSpec, clampRange] at h1
    norm_num at h1
  · simp [getRangeResource]
    norm_num
  · simp [getRangeResource]
    norm_num

/-- C7, amended: for a policy with non-negative ratios and a lower bound not above
the upper bound for cpu and for memory, and a capacity with non-negative
millicores and memory, `getRangeResource` equals the reference definition, and
when the ratios are not both zero each band lies between the lower and the upper
bound of its resource kind. -/
theorem getRangeResource_eq_spec (resRange : RangeResource) (cap : NMCapacity)
    (hrc : 0 ≤ resRange.CPUMilli.Ratio) (hrm : 0 ≤ resRange.MemMB.Ratio)
    (hbc : resRange.CPUMilli.Min ≤ resRange.CPUMilli.Max)
    (hbm : resRange.MemMB.Min ≤ resRange.MemMB.Max)
    (hc : 0 ≤ cap.Millcores) (hm : 0 ≤ cap.MemoryMB) :
    getRangeResource resRange cap = getRangeResourceSpec resRange cap
      ∧ (¬ (resRange.CPUMilli.Ratio = 0 ∧ resRange.MemMB.Ratio = 0) →
          (resRange.CPUMilli.Min ≤ (getRangeResource resRange cap).1
            ∧ (getRangeResource resRange cap).1 ≤ resRange.CPUMilli.Max)
          ∧ (resRange.MemMB.Min ≤ (getRangeResource resRange cap).2
            ∧ (getRangeResource resRange cap).2 ≤ resRange.MemMB.Max)) := by
  have hsum : resRange.CPUMilli.Ratio + resRange.MemMB.Ratio = 0
      ↔ resRange.CPUMilli.Ratio = 0 ∧ resRange.MemMB.Ratio = 0 := by
    constructor
    · intro h
      constructor <;> linarith
    · rintro ⟨h1, h2⟩
      rw [h1, h2, add_zero]
  have hxc : (0 : ℚ) ≤ (cap.Millcores : ℚ) * resRange.CPUMilli.Ratio :=
    mul_nonneg (by exact_mod_cast hc) hrc
  have hxm : (0 : ℚ) ≤ (cap.MemoryMB : ℚ) * resRange.MemMB.Ratio :=
    mul_nonneg (by exact_mod_cast hm) hrm
  have key : ∀ x lo hi : ℚ, 0 ≤ x → lo ≤ hi →
      (if (if lo ≠ 0 ∧ x < lo then lo else x) > hi then hi
        else (if lo ≠ 0 ∧ x < lo then lo else x)) = clampRange x lo hi
      ∧ lo ≤ clampRange x lo hi ∧ clampRange x lo hi ≤ hi := by
    intro x lo hi hx hlh
    refine ⟨?_, le_max_left _ _, max_le hlh (min_le_right _ _)⟩
    unfold clampRange
    by_cases h0 : lo = 0
    · subst h0
      have hmin : (0 : ℚ) ≤ min x hi := le_min hx hlh
      rw [max_eq_right hmin]
      by_cases hgt : x > hi
      · simp [hgt, min_eq_right (le_of_lt hgt)]
      · simp [hgt, min_eq_left (not_lt.mp hgt)]
    · by_cases hlt : x < lo
      · have hxh : x ≤ hi := le_trans (le_of_lt hlt) hlh
        have hnot : ¬ lo > hi := not_lt.mpr hlh
        simp [h0, hlt, hnot, min_eq_left hxh, max_eq_left (le_of_lt hlt)]
      · have hle : lo ≤ x := not_lt.mp hlt
        by_cases hgt : x > hi
        · simp [hlt, hgt, min_eq_right (le_of_lt hgt), max_eq_right hlh]
        · simp [hlt, hgt, min_eq_left (not_lt.mp hgt), max_eq_right hle]
  obtain ⟨kc1, kc2, kc3⟩ := key _ _ _ hxc hbc
  obtain ⟨km1, km2, km3⟩ := key _ _ _ hxm hbm
  by_cases hz : resRange.CPUMilli.Ratio = 0 ∧ resRange.MemMB.Ratio = 0
  · have hs := hsum.mpr hz
    simp [getRangeResource, getRangeResourceSpec, hs, hz]
  · have hs : ¬ resRange.CPUMilli.Ratio + resRange.MemMB.Ratio = 0 := fun h => hz (hsum.mp h)
    have heq : getRangeResource resRange cap = getRangeResourceSpec resRange cap := by
      simp only [getRangeResource, getRangeResourceSpec, if_neg hs, if_neg hz]
      rw [kc1, km1]
    refine ⟨heq, fun _ => ?_⟩
    rw [heq]
    simp only [getRangeResourceSpec, if_neg hz]
    exact ⟨⟨kc2, kc3⟩, ⟨km2, km3⟩⟩

/-- The amended C7 at the policy `tenPercentRange` and the capacity 4000m, 8192MB:
the code and the reference give the band `(400, 819.2)`. -/
theorem getRangeResource_eq_spec_witness :
    getRangeResource tenPercentRange ⟨4, 4000, 8192⟩
        = getRangeResourceSpec tenPercentRange ⟨4, 4000, 8192⟩
      ∧ getRangeResourceSpec tenPercentRange ⟨4, 4000, 8192⟩ = (400, 4096 / 5) :=
  ⟨(getRangeResource_eq_spec tenPercentRange ⟨4, 4000, 8192⟩
      (by norm_num [tenPercentRange]) (by norm_num [tenPercentRange])
      (by norm_num [tenPercentRange]) (by norm_num [tenPercentRange])
      (by norm_num) (by norm_num)).1,
   by simp [getRangeResourceSpec, clampRange, tenPercentRange]; norm_num⟩

/-- The calls recorded after `tr` in `tr ++ evs` are `evs`. -/
theorem emitted_append (tr evs : List Event) : emitted tr (tr ++ evs) = evs := by
  simp [emitted]

/-- The adapter loop records, after what was recorded before, the invocations of
the adapters at positions `idx, idx + 1, ...` that answered `false`, followed by
the invocation of the adapter that answered `true` when there is one; without
one it runs through the whole list. -/
theorem runHandlers_trace {σ : Type} (hs : List (ResourceAdapter σ)) :
    ∀ (idx : Nat) (res : ResourceList) (w : σ) (tr : List Event),
      ∃ k, k ≤ hs.length
        ∧ (runHandlers hs idx res w tr).trace
            = tr ++ ((List.range k).map (fun i => Event.resourceAdapt (idx + i) false)
              ++ (if (runHandlers hs idx res w tr).reachMin then
                    [Event.resourceAdapt (idx + k) true] else []))
        ∧ ((runHandlers hs idx res w tr).reachMin = true → k < hs.length)
        ∧ ((runHandlers hs idx res w tr).reachMin = false → k = hs.length) := by
  induction hs with
  | nil =>
    intro idx res w tr
    exact ⟨0, le_refl _, by simp [runHandlers], by simp [runHandlers], by simp [runHandlers]⟩
  | cons rh rest ih =>
    intro idx res w tr
    by_cases hb : (rh.ResourceAdapt res w).1.2 = true
    · refine ⟨0, Nat.zero_le _, ?_, ?_, ?_⟩ <;> simp [runHandlers, hb]
    · obtain ⟨k, hk, htr, ht, hf⟩ := ih (idx + 1) (rh.ResourceAdapt res w).1.1
        (rh.ResourceAdapt res w).2 (tr ++ [Event.resourceAdapt idx false])
      have hrun : runHandlers (rh :: rest) idx res w tr
          = runHandlers rest (idx + 1) (rh.ResourceAdapt res w).1.1
              (rh.ResourceAdapt res w).2 (tr ++ [Event.resourceAdapt idx false]) := by
        simp [runHandlers, hb]
      refine ⟨k + 1, by simpa using hk, ?_, ?_, ?_⟩
      · rw [hrun, htr, List.range_succ_eq_map]
        simp [List.map_map, Function.comp_def, Nat.add_assoc, Nat.add_comm 1]
      · rw [hrun]
        intro h
        simpa using ht h
      · rw [hrun]
        intro h
        simpa using hf h

/-- After the adapter loop `beCapacity` records capacity queries only. -/
theorem beCapacity_trace {σ : Type} (y : yarnClient σ) (res : ResourceList) (c : Bool) :
    ∃ evs, (beCapacity y res c).y.trace
        = (runHandlers y.resourceHandlers 0 res y.world y.trace).trace ++ evs
      ∧ ∀ e ∈ evs, e = Event.getCapacity ∨ e = Event.getMinCapacity := by
  cases c with
  | true => exact ⟨[], by simp [beCapacity], by simp⟩
  | false =>
    simp only [beCapacity, Bool.false_eq_true, if_false]
    split
    · exact ⟨[Event.getCapacity], rfl, by simp⟩
    · split
      · split
        · exact ⟨[Event.getCapacity, Event.getMinCapacity], by simp, by simp⟩
        · exact ⟨[Event.getCapacity, Event.getMinCapacity], by simp, by simp⟩
      · split
        · exact ⟨[Event.getCapacity], rfl, by simp⟩
        · split
          · exact ⟨[Event.getCapacity], rfl, by simp⟩
          · exact ⟨[Event.getCapacity], rfl, by simp⟩

/-- The configuration, the schedule flag, the control plane, the growth timestamp
and the adapter list are left as they are by `beCapacity`. -/
theorem beCapacity_frame {σ : Type} (y : yarnClient σ) (res : ResourceList) (c : Bool) :
    (beCapacity y res c).y.YarnConfig = y.YarnConfig
      ∧ (beCapacity y res c).y.scheduleDisabled = y.scheduleDisabled
      ∧ (beCapacity y res c).y.ginit = y.ginit
      ∧ (beCapacity y res c).y.lastCapIncTimestamp = y.lastCapIncTimestamp
      ∧ (beCapacity y res c).y.resourceHandlers = y.resourceHandlers := by
  cases c with
  | true => simp [beCapacity]
  | false =>
    simp only [beCapacity, Bool.false_eq_true, if_false]
    split
    · simp
    · split
      · split <;> simp
      · split
        · simp
        · split <;> simp

/-- No adapter has been applied after zero steps. -/
theorem adaptedAfter_zero {σ : Type} (hs : List (ResourceAdapter σ)) (res : ResourceList)
    (w : σ) : adaptedAfter hs 0 res w = (res, w) := by
  cases hs <;> rfl

/-- The answer at position `0` is the answer of the head of the list. -/
theorem adapterAnswer_cons_zero {σ : Type} (rh : ResourceAdapter σ)
    (rest : List (ResourceAdapter σ)) (res : ResourceList) (w : σ) :
    adapterAnswer (rh :: rest) 0 res w = (rh.ResourceAdapt res w).1.2 := by
  simp [adapterAnswer, adaptedAfter]

/-- The answer at position `i + 1` is the answer at position `i` of the tail, on
what the head has made of `res` and `w`. -/
theorem adapterAnswer_cons_succ {σ : Type} (rh : ResourceAdapter σ)
    (rest : List (ResourceAdapter σ)) (i : Nat) (res : ResourceList) (w : σ) :
    adapterAnswer (rh :: rest) (i + 1) res w
      = adapterAnswer rest i (rh.ResourceAdapt res w).1.1 (rh.ResourceAdapt res w).2 := by
  simp [adapterAnswer, adaptedAfter]

/-- The adapter loop against the answers of the adapters: the `k` adapters at the
head of the list answered `false`; when `reachMin` is true the adapter at
position `k` answered `true`, and otherwise `k` is the length of the list; the
loop records these invocations in order and returns what exactly the invoked
adapters have made of `res` and `w`. -/
theorem runHandlers_answers {σ : Type} (hs : List (ResourceAdapter σ)) :
    ∀ (idx : Nat) (res : ResourceList) (w : σ) (tr : List Event),
      ∃ k, k ≤ hs.length
        ∧ (∀ i, i < k → adapterAnswer hs i res w = false)
        ∧ ((runHandlers hs idx res w tr).reachMin = true
            → k < hs.length ∧ adapterAnswer hs k res w = true)
        ∧ ((runHandlers hs idx res w tr).reachMin = false → k = hs.length)
        ∧ (runHandlers hs idx res w tr).trace
            = tr ++ ((List.range k).map (fun i => Event.resourceAdapt (idx + i) false)
              ++ (if (runHandlers hs idx res w tr).reachMin then
                    [Event.resourceAdapt (idx + k) true] else []))
        ∧ ((runHandlers hs idx res w tr).res, (runHandlers hs idx res w tr).world)
            = adaptedAfter hs
                (if (runHandlers hs idx res w tr).reachMin then k + 1 else k) res w := by
  induction hs with
  | nil =>
    intro idx res w tr
    refine ⟨0, le_refl _, ?_, ?_, ?_, ?_, ?_⟩ <;> simp [runHandlers, adaptedAfter]
  | cons rh rest ih =>
    intro idx res w tr
    by_cases hb : (rh.ResourceAdapt res w).1.2 = true
    · refine ⟨0, Nat.zero_le _, ?_, ?_, ?_, ?_, ?_⟩
      · intro i hi
        exact absurd hi (Nat.not_lt_zero i)
      · intro _
        exact ⟨Nat.succ_pos _, by rw [adapterAnswer_cons_zero]; exact hb⟩
      · simp [runHandlers, hb]
      · simp [runHandlers, hb]
      · simp [runHandlers, hb, adaptedAfter, adaptedAfter_zero]
    · obtain ⟨k, hk, hans, ht, hf, htr, hst⟩ := ih (idx + 1) (rh.ResourceAdapt res w).1.1
        (rh.ResourceAdapt res w).2 (tr ++ [Event.resourceAdapt idx false])
      have hrun : runHandlers (rh :: rest) idx res w tr
          = runHandlers rest (idx + 1) (rh.ResourceAdapt res w).1.1
              (rh.ResourceAdapt res w).2 (tr ++ [Event.resourceAdapt idx false]) := by
        simp [runHandlers, hb]
      refine ⟨k + 1, by simpa using hk, ?_, ?_, ?_, ?_, ?_⟩
      · intro i hi
        cases i with
        | zero =>
          rw [adapterAnswer_cons_zero]
          simpa using hb
        | succ i =>
          rw [adapterAnswer_cons_succ]
          exact hans i (Nat.lt_of_succ_lt_succ hi)
      · rw [hrun]
        intro h
        obtain ⟨h1, h2⟩ := ht h
        exact ⟨by simpa using h1, by rw [adapterAnswer_cons_succ]; exact h2⟩
      · rw [hrun]
        intro h
        simpa using hf h
      · rw [hrun, htr, List.range_succ_eq_map]
        simp [List.map_map, Function.comp_def, Nat.add_assoc, Nat.add_comm 1]
      · rw [hrun, hst]
        cases (runHandlers rest (idx + 1) (rh.ResourceAdapt res w).1.1
          (rh.ResourceAdapt res w).2 (tr ++ [Event.resourceAdapt idx false])).reachMin <;>
          simp [adaptedAfter]

/-- The resource list returned by `beCapacity` is the one the adapter loop left. -/
theorem beCapacity_res {σ : Type} (y : yarnClient σ) (res : ResourceList) (c : Bool) :
    (beCapacity y res c).res = (runHandlers y.resourceHandlers 0 res y.world y.trace).res := by
  cases c with
  | true => simp [beCapacity]
  | false =>
    simp only [beCapacity, Bool.false_eq_true, if_false]
    split
    · rfl
    · split
      · split <;> rfl
      · split
        · rfl
        · split <;> rfl

/-- C9: `beCapacity` invokes the adapters in list order, position `0` first, each
on what the adapters before it have made of the allocation and of the
collaborator state, and invokes exactly those up to the first one whose
`ResourceAdapt` answers `reachedMinimum = true`. There is a `k` such that the
adapters at positions below `k` all answered `false`; when the recorded `reachMin`
is true the adapter at position `k` answered `true`, and otherwise `k` is the
length of the list. The invocations recorded are those at positions `0` to `k`,
respectively `k - 1`, in order and once each, and the allocation and the
collaborator state the loop hands on are what exactly these adapters produced, so
that no adapter after the first answer `true` has run. The recorded `reachMin` is
true exactly when one of the invoked adapters answered `true`. -/
theorem beCapacity_short_circuit {σ : Type} (y : yarnClient σ) (res : ResourceList)
    (conflicting : Bool) :
    ∃ k, k ≤ y.resourceHandlers.length
      ∧ (∀ i, i < k → adapterAnswer y.resourceHandlers i res y.world = false)
      ∧ ((runHandlers y.resourceHandlers 0 res y.world y.trace).reachMin = true
          → k < y.resourceHandlers.length
            ∧ adapterAnswer y.resourceHandlers k res y.world = true)
      ∧ ((runHandlers y.resourceHandlers 0 res y.world y.trace).reachMin = false
          → k = y.resourceHandlers.length)
      ∧ (emitted y.trace (beCapacity y res conflicting).y.trace).filter Event.isResourceAdapt
          = (List.range k).map (fun i => Event.resourceAdapt i false)
            ++ (if (runHandlers y.resourceHandlers 0 res y.world y.trace).reachMin then
                  [Event.resourceAdapt k true] else [])
      ∧ (beCapacity y res conflicting).res
          = (adaptedAfter y.resourceHandlers
              (if (runHandlers y.resourceHandlers 0 res y.world y.trace).reachMin then k + 1
                else k) res y.world).1
      ∧ (runHandlers y.resourceHandlers 0 res y.world y.trace).world
          = (adaptedAfter y.resourceHandlers
              (if (runHandlers y.resourceHandlers 0 res y.world y.trace).reachMin then k + 1
                else k) res y.world).2
      ∧ ((runHandlers y.resourceHandlers 0 res y.world y.trace).reachMin = true
          ↔ ∃ i, i ≤ k ∧ i < y.resourceHandlers.length
              ∧ adapterAnswer y.resourceHandlers i res y.world = true)
      ∧ ((runHandlers y.resourceHandlers 0 res y.world y.trace).reachMin = true
          ↔ ∃ i, Event.resourceAdapt i true
              ∈ emitted y.trace (beCapacity y res conflicting).y.trace) := by
  obtain ⟨k, hk, hans, ht, hf, htr, hst⟩ :=
    runHandlers_answers y.resourceHandlers 0 res y.world y.trace
  obtain ⟨evs, hevs, hq⟩ := beCapacity_trace y res conflicting
  have hnone : evs.filter Event.isResourceAdapt = [] := by
    rw [List.filter_eq_nil_iff]
    intro e he
    rcases hq e he with h | h <;> simp [h, Event.isResourceAdapt]
  have hem : emitted y.trace (beCapacity y res conflicting).y.trace
      = ((List.range k).map (fun i => Event.resourceAdapt i false)
          ++ (if (runHandlers y.resourceHandlers 0 res y.world y.trace).reachMin then
                [Event.resourceAdapt k true] else [])) ++ evs := by
    rw [hevs, htr, List.append_assoc, emitted_append]
    simp
  have hall : ((List.range k).map (fun i => Event.resourceAdapt i false)).filter
      Event.isResourceAdapt = (List.range k).map (fun i => Event.resourceAdapt i false) := by
    rw [List.filter_eq_self]
    intro e he
    obtain ⟨i, _, rfl⟩ := List.mem_map.mp he
    rfl
  refine ⟨k, hk, hans, ht, hf, ?_, ?_, ?_, ?_, ?_⟩
  · rw [hem, List.filter_append, List.filter_append, hnone, hall, List.append_nil]
    cases (runHandlers y.resourceHandlers 0 res y.world y.trace).reachMin <;>
      simp [Event.isResourceAdapt]
  · rw [beCapacity_res, ← hst]
  · rw [← hst]
  · constructor
    · intro h
      exact ⟨k, le_refl _, (ht h).1, (ht h).2⟩
    · rintro ⟨i, hik, hil, hi⟩
      cases hr : (runHandlers y.resourceHandlers 0 res y.world y.trace).reachMin with
      | true => rfl
      | false =>
        have hkl := hf hr
        have hfalse := hans i (by omega)
        rw [hfalse] at hi
        cases hi
  · rw [hem]
    constructor
    · intro h
      exact ⟨k, by simp [h]⟩
    · rintro ⟨i, hi⟩
      cases hr : (runHandlers y.resourceHandlers 0 res y.world y.trace).reachMin with
      | true => rfl
      | false =>
        rw [hr] at hi
        simp only [Bool.false_eq_true, if_false, List.append_nil, List.mem_append,
          List.mem_map] at hi
        rcases hi with ⟨j, _, hj⟩ | hi
        · cases hj
        · rcases hq _ hi with h | h <;> cases h

/-- C5: when a transition is attempted, the flag being in the opposite state, and
the control-plane command answers the error `err`, then `DisableOfflineSchedule`
and `EnableOfflineSchedule` alike return `err`, leave `scheduleDisabled` as it
was and write no checkpoint. -/
theorem schedule_transition_error {σ : Type} (y : yarnClient σ) (err : Error) :
    (y.scheduleDisabled = false → (y.ginit.DisableSchedule y.world).1 = some err →
        (DisableOfflineSchedule y).1 = some err
          ∧ (DisableOfflineSchedule y).2.scheduleDisabled = y.scheduleDisabled
          ∧ (emitted y.trace (DisableOfflineSchedule y).2.trace).countP
              Event.isStoreCheckpoint = 0)
      ∧ (y.scheduleDisabled = true → (y.ginit.EnableSchedule y.world).1 = some err →
        (EnableOfflineSchedule y).1 = some err
          ∧ (EnableOfflineSchedule y).2.scheduleDisabled = y.scheduleDisabled
          ∧ (emitted y.trace (EnableOfflineSchedule y).2.trace).countP
              Event.isStoreCheckpoint = 0) := by
  constructor
  · intro hflag hcmd
    simp [DisableOfflineSchedule, hflag, hcmd, emitted_append, Event.isStoreCheckpoint]
  · intro hflag hcmd
    simp [EnableOfflineSchedule, hflag, hcmd, emitted_append, Event.isStoreCheckpoint]

/-- C5 on a control plane that refuses both commands: disabling from the enabled
state and enabling from the disabled state return the refusal and keep the flag. -/
theorem schedule_transition_error_witness :
    ((DisableOfflineSchedule (downClient (some "refused") false)).1 = some "refused"
        ∧ (DisableOfflineSchedule (downClient (some "refused") false)).2.scheduleDisabled = false)
      ∧ ((EnableOfflineSchedule (downClient (some "refused") true)).1 = some "refused"
        ∧ (EnableOfflineSchedule (downClient (some "refused") true)).2.scheduleDisabled = true) :=
  ⟨⟨((schedule_transition_error (downClient (some "refused") false) "refused").1 rfl rfl).1,
    ((schedule_transition_error (downClient (some "refused") false) "refused").1 rfl rfl).2.1⟩,
   ⟨((schedule_transition_error (downClient (some "refused") true) "refused").2 rfl rfl).1,
    ((schedule_transition_error (downClient (some "refused") true) "refused").2 rfl rfl).2.1⟩⟩

/-- C6: after a `DisableOfflineSchedule` that returned nil, a second
`DisableOfflineSchedule` returns nil and leaves the engine exactly as it was, with
`scheduleDisabled = true`: no alarm, no `DisableSchedule` command, no metric
update and no checkpoint write is recorded. -/
theorem disable_idempotent {σ : Type} (y : yarnClient σ)
    (h : (DisableOfflineSchedule y).1 = none) :
    DisableOfflineSchedule (DisableOfflineSchedule y).2 = (none, (DisableOfflineSchedule y).2)
      ∧ (DisableOfflineSchedule (DisableOfflineSchedule y).2).2.scheduleDisabled = true
      ∧ emitted (DisableOfflineSchedule y).2.trace
          (DisableOfflineSchedule (DisableOfflineSchedule y).2).2.trace = [] := by
  have hflag : (DisableOfflineSchedule y).2.scheduleDisabled = true := by
    by_cases hd : y.scheduleDisabled = true
    · simp [DisableOfflineSchedule, hd]
    · cases hc : (y.ginit.DisableSchedule y.world).1 with
      | some e => simp [DisableOfflineSchedule, hd, hc] at h
      | none => simp [DisableOfflineSchedule, hd, hc]
  have hsame : DisableOfflineSchedule (DisableOfflineSchedule y).2
      = (none, (DisableOfflineSchedule y).2) := by
    generalize DisableOfflineSchedule y = r at hflag
    simp [DisableOfflineSchedule, hflag]
  refine ⟨hsame, ?_, ?_⟩
  · rw [hsame]
    exact hflag
  · rw [hsame]
    simp [emitted]

/-- C6 on the sample engine, which starts enabled: the first call disables and
records four calls, the second records nothing. -/
theorem disable_idempotent_witness :
    (DisableOfflineSchedule (sampleClient (.ok ⟨4, 4000, 8192⟩) ⟨1, 1000, 1024⟩ [])).2.trace
        = [Event.sendAlarm "schedule is closing", Event.disableSchedule,
            Event.nodeScheduleDisabled 1, Event.storeCheckpoint true]
      ∧ (DisableOfflineSchedule (DisableOfflineSchedule
          (sampleClient (.ok ⟨4, 4000, 8192⟩) ⟨1, 1000, 1024⟩ [])).2).2.trace
        = (DisableOfflineSchedule
          (sampleClient (.ok ⟨4, 4000, 8192⟩) ⟨1, 1000, 1024⟩ [])).2.trace :=
  ⟨rfl, congrArg (fun r => r.2.trace)
    (disable_idempotent (sampleClient (.ok ⟨4, 4000, 8192⟩) ⟨1, 1000, 1024⟩ []) rfl).1⟩

/-- C10: in `startAndCheckNMProcess`, whatever the control plane answers: a
first status of "running" leads to no start command and no alarm; the start
command is issued at most once, and exactly when the first status query succeeds
with "not running"; when that start command fails, it is followed by no second
status query and no alarm; the alarm is sent, once, exactly when the first status
was "not running", the start command succeeded and the second status query
succeeded with "not running". -/
theorem startAndCheckNMProcess_liveness {σ : Type} (y : yarnClient σ) :
    ((y.ginit.GetStatus y.world).1 = .ok true →
        (emitted y.trace (startAndCheckNMProcess y).trace).countP Event.isStartNodemanager = 0
          ∧ (emitted y.trace (startAndCheckNMProcess y).trace).countP Event.isSendAlarm = 0)
      ∧ (emitted y.trace (startAndCheckNMProcess y).trace).countP Event.isStartNodemanager ≤ 1
      ∧ ((emitted y.trace (startAndCheckNMProcess y).trace).countP Event.isStartNodemanager = 1
          ↔ (y.ginit.GetStatus y.world).1 = .ok false)
      ∧ ((y.ginit.GetStatus y.world).1 = .ok false →
          (y.ginit.StartNodemanager (y.ginit.GetStatus y.world).2).1 ≠ none →
            (emitted y.trace (startAndCheckNMProcess y).trace).countP Event.isGetStatus = 1
              ∧ (emitted y.trace (startAndCheckNMProcess y).trace).countP Event.isSendAlarm = 0)
      ∧ (emitted y.trace (startAndCheckNMProcess y).trace).countP Event.isSendAlarm ≤ 1
      ∧ ((emitted y.trace (startAndCheckNMProcess y).trace).countP Event.isSendAlarm = 1
          ↔ (y.ginit.GetStatus y.world).1 = .ok false
            ∧ (y.ginit.StartNodemanager (y.ginit.GetStatus y.world).2).1 = none
            ∧ (y.ginit.GetStatus
                (y.ginit.StartNodemanager (y.ginit.GetStatus y.world).2).2).1 = .ok false) := by
  cases h1 : (y.ginit.GetStatus y.world).1 with
  | error e =>
    simp [startAndCheckNMProcess, h1, emitted_append, Event.isStartNodemanager,
      Event.isSendAlarm, Event.isGetStatus]
  | ok running =>
    cases running with
    | true =>
      simp [startAndCheckNMProcess, h1, emitted_append, Event.isStartNodemanager,
        Event.isSendAlarm, Event.isGetStatus]
    | false =>
      cases h2 : (y.ginit.StartNodemanager (y.ginit.GetStatus y.world).2).1 with
      | some e =>
        simp [startAndCheckNMProcess, h1, h2, emitted_append, Event.isStartNodemanager,
          Event.isSendAlarm, Event.isGetStatus]
      | none =>
        cases h3 : (y.ginit.GetStatus
            (y.ginit.StartNodemanager (y.ginit.GetStatus y.world).2).2).1 with
        | error e =>
          simp [startAndCheckNMProcess, h1, h2, h3, emitted_append, Event.isStartNodemanager,
            Event.isSendAlarm, Event.isGetStatus]
        | ok running2 =>
          cases running2 <;>
            simp [startAndCheckNMProcess, h1, h2, h3, emitted_append,
              Event.isStartNodemanager, Event.isSendAlarm, Event.isGetStatus]

/-- C10 on a process that stays down after a successful start command: the calls
are status, start, sleep, status, alarm; and when the start command is refused
they are status, start. -/
theorem startAndCheckNMProcess_liveness_witness :
    (startAndCheckNMProcess (downClient none false)).trace
        = [Event.getStatus, Event.startNodemanager, Event.sleep waiting, Event.getStatus,
            Event.sendAlarm notRunningMsg]
      ∧ (startAndCheckNMProcess (downClient (some "refused") false)).trace
        = [Event.getStatus, Event.startNodemanager]
      ∧ (emitted (downClient none false).trace
          (startAndCheckNMProcess (downClient none false)).trace).countP Event.isSendAlarm = 1 :=
  ⟨rfl, rfl,
   (startAndCheckNMProcess_liveness (downClient none false)).2.2.2.2.2.mpr ⟨rfl, rfl, rfl⟩⟩

/-- The calls recorded by `beCapacity` come after those recorded before and hold
no `EnsureCapacity`. -/
theorem beCapacity_emits {σ : Type} (y : yarnClient σ) (res : ResourceList) (c : Bool) :
    ∃ evs, (beCapacity y res c).y.trace = y.trace ++ evs
      ∧ ∀ e ∈ evs, ∀ b, Event.isEnsureCapacity e = false
          ∧ Event.isEnsureCapacityWith b e = false := by
  obtain ⟨k, _, htr, _, _⟩ := runHandlers_trace y.resourceHandlers 0 res y.world y.trace
  obtain ⟨evs, hevs, hq⟩ := beCapacity_trace y res c
  refine ⟨_, by rw [hevs, htr, List.append_assoc], ?_⟩
  intro e he b
  rcases List.mem_append.mp he with he | he
  · rcases List.mem_append.mp he with he | he
    · obtain ⟨i, _, rfl⟩ := List.mem_map.mp he
      exact ⟨rfl, rfl⟩
    · split at he
      · rw [List.mem_singleton] at he
        subst he
        exact ⟨rfl, rfl⟩
      · cases he
  · rcases hq e he with h | h <;> subst h <;> exact ⟨rfl, rfl⟩

/-- Counting over calls among which none satisfies the predicate gives zero. -/
theorem countP_eq_zero_of_forall (p : Event → Bool) (evs : List Event)
    (h : ∀ e ∈ evs, p e = false) : evs.countP p = 0 := by
  rw [List.countP_eq_zero]
  intro e he
  simp [h e he]

/-- What `updateCapacity` records: the calls of `beCapacity`, the metrics reset,
and then `tail`, where `tail` is determined by the decision and the throttle. -/
theorem updateCapacity_trace {σ : Type} (y : yarnClient σ) (res : ResourceList)
    (conf : List String) (now₁ now₂ : Time) :
    ∃ evs, (∀ e ∈ evs, ∀ b, Event.isEnsureCapacity e = false
          ∧ Event.isEnsureCapacityWith b e = false)
      ∧ ((beCapacity y res (decide (conf.length > 0))).capacityChanged = true →
          (beCapacity y res (decide (conf.length > 0))).capacityIncrease = true →
          ¬ (y.lastCapIncTimestamp + y.YarnConfig.CapacityIncInterval > now₁) →
            (updateCapacity y res conf now₁ now₂).y.lastCapIncTimestamp = now₂
              ∧ (updateCapacity y res conf now₁ now₂).y.trace
                  = y.trace ++ (evs ++ [Event.ensureCapacity
                      (expectCap y.YarnConfig (updateCapacity y res conf now₁ now₂).res)
                      conf false]))
      ∧ ((beCapacity y res (decide (conf.length > 0))).capacityChanged = true →
          (beCapacity y res (decide (conf.length > 0))).capacityIncrease = true →
          y.lastCapIncTimestamp + y.YarnConfig.CapacityIncInterval > now₁ →
            (updateCapacity y res conf now₁ now₂).y.lastCapIncTimestamp = y.lastCapIncTimestamp
              ∧ (updateCapacity y res conf now₁ now₂).y.trace = y.trace ++ evs)
      ∧ ((beCapacity y res (decide (conf.length > 0))).capacityChanged = true →
          (beCapacity y res (decide (conf.length > 0))).capacityIncrease = false →
            (updateCapacity y res conf now₁ now₂).y.lastCapIncTimestamp = y.lastCapIncTimestamp
              ∧ (updateCapacity y res conf now₁ now₂).y.trace
                  = y.trace ++ (evs ++ [Event.ensureCapacity
                      (expectCap y.YarnConfig (updateCapacity y res conf now₁ now₂).res)
                      conf true])) := by
  obtain ⟨evs, hevs, hq⟩ := beCapacity_emits y res (decide (conf.length > 0))
  obtain ⟨_, _, _, hts, _⟩ := beCapacity_frame y res (decide (conf.length > 0))
  refine ⟨evs ++ [Event.nodeResourceMetricsReset
    (beCapacity y res (decide (conf.length > 0))).res], ?_, ?_, ?_, ?_⟩
  · intro e he b
    rcases List.mem_append.mp he with he | he
    · exact hq e he b
    · rw [List.mem_singleton] at he
      subst he
      exact ⟨rfl, rfl⟩
  · intro hch hinc hfree
    rw [← hts] at hfree
    simp only [updateCapacity, hch, hinc, hfree, hevs, Bool.not_true, Bool.false_eq_true,
      if_false, if_true]
    simp
  · intro hch hinc hthr
    rw [← hts] at hthr
    simp only [updateCapacity, hch, hinc, hthr, hevs, Bool.not_true, Bool.false_eq_true,
      if_false, if_true]
    exact ⟨hts, by simp⟩
  · intro hch hinc
    simp only [updateCapacity, hch, hinc, hevs, Bool.not_true, Bool.false_eq_true,
      if_false]
    simp [hts]

/-- C4: let a cycle of `updateCapacity` decide on a growth that is not throttled.
It calls `EnsureCapacity` once, with `isDecrease = false`, and sets
`lastCapIncTimestamp` to the clock reading `t₁` taken after the call. Then any
cycle on an engine that still carries this timestamp, at a time
`t₂ < t₁ + CapacityIncInterval`, whose decision is a growth, calls
`EnsureCapacity` not at all and keeps the timestamp `t₁`. And any cycle, at any
time and with any timestamp, whose decision is a change that is not a growth, as
it is whenever a resource is in conflict, calls `EnsureCapacity` exactly once,
with `isDecrease = true`. -/
theorem updateCapacity_throttle {σ : Type} (y : yarnClient σ) (res₁ : ResourceList)
    (conf₁ : List String) (n₁ t₁ : Time) (y₂ : yarnClient σ) (res₂ : ResourceList)
    (conf₂ : List String) (t₂ t₃ : Time)
    (hch : (beCapacity y res₁ (decide (conf₁.length > 0))).capacityChanged = true)
    (hinc : (beCapacity y res₁ (decide (conf₁.length > 0))).capacityIncrease = true)
    (hfree : ¬ (y.lastCapIncTimestamp + y.YarnConfig.CapacityIncInterval > n₁)) :
    ((updateCapacity y res₁ conf₁ n₁ t₁).y.lastCapIncTimestamp = t₁
        ∧ (emitted y.trace (updateCapacity y res₁ conf₁ n₁ t₁).y.trace).countP
            Event.isEnsureCapacity = 1
        ∧ (emitted y.trace (updateCapacity y res₁ conf₁ n₁ t₁).y.trace).countP
            (Event.isEnsureCapacityWith false) = 1)
      ∧ (y₂.lastCapIncTimestamp = (updateCapacity y res₁ conf₁ n₁ t₁).y.lastCapIncTimestamp →
          t₂ < t₁ + y₂.YarnConfig.CapacityIncInterval →
          (beCapacity y₂ res₂ (decide (conf₂.length > 0))).capacityChanged = true →
          (beCapacity y₂ res₂ (decide (conf₂.length > 0))).capacityIncrease = true →
            (emitted y₂.trace (updateCapacity y₂ res₂ conf₂ t₂ t₃).y.trace).countP
                Event.isEnsureCapacity = 0
              ∧ (updateCapacity y₂ res₂ conf₂ t₂ t₃).y.lastCapIncTimestamp = t₁)
      ∧ ((beCapacity y₂ res₂ (decide (conf₂.length > 0))).capacityChanged = true →
          (beCapacity y₂ res₂ (decide (conf₂.length > 0))).capacityIncrease = false →
            (emitted y₂.trace (updateCapacity y₂ res₂ conf₂ t₂ t₃).y.trace).countP
                Event.isEnsureCapacity = 1
              ∧ (emitted y₂.trace (updateCapacity y₂ res₂ conf₂ t₂ t₃).y.trace).countP
                (Event.isEnsureCapacityWith true) = 1)
      ∧ (conf₂ ≠ [] →
            (emitted y₂.trace (updateCapacity y₂ res₂ conf₂ t₂ t₃).y.trace).countP
                Event.isEnsureCapacity = 1
              ∧ (emitted y₂.trace (updateCapacity y₂ res₂ conf₂ t₂ t₃).y.trace).countP
                (Event.isEnsureCapacityWith true) = 1) := by
  obtain ⟨evs, hq, hgrow, _, _⟩ := updateCapacity_trace y res₁ conf₁ n₁ t₁
  obtain ⟨evs₂, hq₂, _, hthr₂, hshr₂⟩ := updateCapacity_trace y₂ res₂ conf₂ t₂ t₃
  obtain ⟨hts, htr⟩ := hgrow hch hinc hfree
  have hz : evs.countP Event.isEnsureCapacity = 0 :=
    countP_eq_zero_of_forall _ _ (fun e he => (hq e he true).1)
  have hzf : evs.countP (Event.isEnsureCapacityWith false) = 0 :=
    countP_eq_zero_of_forall _ _ (fun e he => (hq e he false).2)
  have hz₂ : evs₂.countP Event.isEnsureCapacity = 0 :=
    countP_eq_zero_of_forall _ _ (fun e he => (hq₂ e he true).1)
  have hzt₂ : evs₂.countP (Event.isEnsureCapacityWith true) = 0 :=
    countP_eq_zero_of_forall _ _ (fun e he => (hq₂ e he true).2)
  have shrink : (beCapacity y₂ res₂ (decide (conf₂.length > 0))).capacityChanged = true →
      (beCapacity y₂ res₂ (decide (conf₂.length > 0))).capacityIncrease = false →
        (emitted y₂.trace (updateCapacity y₂ res₂ conf₂ t₂ t₃).y.trace).countP
            Event.isEnsureCapacity = 1
          ∧ (emitted y₂.trace (updateCapacity y₂ res₂ conf₂ t₂ t₃).y.trace).countP
            (Event.isEnsureCapacityWith true) = 1 := by
    intro h1 h2
    obtain ⟨_, htr₂⟩ := hshr₂ h1 h2
    rw [htr₂, emitted_append, List.countP_append, List.countP_append, hz₂, hzt₂]
    simp [Event.isEnsureCapacity, Event.isEnsureCapacityWith]
  refine ⟨⟨hts, ?_, ?_⟩, ?_, shrink, ?_⟩
  · rw [htr, emitted_append, List.countP_append, hz]
    simp [Event.isEnsureCapacity]
  · rw [htr, emitted_append, List.countP_append, hzf]
    simp [Event.isEnsureCapacityWith]
  · intro hlater ht h1 h2
    rw [hts] at hlater
    have hthr : y₂.lastCapIncTimestamp + y₂.YarnConfig.CapacityIncInterval > t₂ := by
      rw [hlater]
      exact ht
    obtain ⟨hkeep, htr₂⟩ := hthr₂ h1 h2 hthr
    rw [htr₂, emitted_append, hkeep]
    exact ⟨hz₂, hlater⟩
  · intro hne
    have hlen : decide (conf₂.length > 0) = true := by
      simpa using List.length_pos.mpr hne
    apply shrink
    · rw [hlen]
      simp [beCapacity]
    · rw [hlen]
      simp [beCapacity]

/-- On `growthClient`, before or after a cycle, the candidate `growthRes` is
decided as a growth. -/
theorem growthClient_decision (ts : Time) (tr : List Event) :
    (beCapacity { growthClient with lastCapIncTimestamp := ts, trace := tr } growthRes
        false).capacityChanged = true
      ∧ (beCapacity { growthClient with lastCapIncTimestamp := ts, trace := tr } growthRes
        false).capacityIncrease = true := by
  simp [beCapacity, runHandlers, growthClient, growthRes, sampleClient, steadyGInit,
    constAdapter, getRangeResource, tenPercentRange]
  norm_num [Int.tdiv]

/-- C4 on `growthClient`: a first cycle at one minute grows and stamps the time
61s; on the engine carrying that timestamp a second growth at 100s, inside the
interval of one minute, is not applied; a cycle at 100s with a resource in
conflict is applied. -/
theorem updateCapacity_throttle_witness :
    (updateCapacity growthClient growthRes [] 60000000000 61000000000).y.lastCapIncTimestamp
        = 61000000000
      ∧ (emitted []
          (updateCapacity { growthClient with lastCapIncTimestamp := 61000000000, trace := [] }
            growthRes [] 100000000000 100000000001).y.trace).countP Event.isEnsureCapacity = 0
      ∧ (emitted []
          (updateCapacity { growthClient with lastCapIncTimestamp := 61000000000, trace := [] }
            growthRes ["cpu"] 100000000000 100000000001).y.trace).countP
              Event.isEnsureCapacity = 1 :=
  have first := (updateCapacity_throttle growthClient growthRes [] 60000000000 61000000000
      growthClient growthRes [] 0 0
      (growthClient_decision 0 []).1 (growthClient_decision 0 []).2 (by decide)).1.1
  ⟨first,
   ((updateCapacity_throttle growthClient growthRes [] 60000000000 61000000000
      { growthClient with lastCapIncTimestamp := 61000000000, trace := [] }
      growthRes [] 100000000000 100000000001
      (growthClient_decision 0 []).1 (growthClient_decision 0 []).2 (by decide)).2.1
        first.symm (by decide) (growthClient_decision _ _).1 (growthClient_decision _ _).2).1,
   ((updateCapacity_throttle growthClient growthRes [] 60000000000 61000000000
      { growthClient with lastCapIncTimestamp := 61000000000, trace := [] }
      growthRes ["cpu"] 100000000000 100000000001
      (growthClient_decision 0 []).1 (growthClient_decision 0 []).2 (by decide)).2.2.2
        (by simp)).1⟩

/-- The calls recorded by `beCapacity` hold no `StopNodemanager`. -/
theorem beCapacity_emits_no_stop {σ : Type} (y : yarnClient σ) (res : ResourceList) (c : Bool) :
    ∃ evs, (beCapacity y res c).y.trace = y.trace ++ evs
      ∧ ∀ e ∈ evs, Event.isStopNodemanager e = false := by
  obtain ⟨k, _, htr, _, _⟩ := runHandlers_trace y.resourceHandlers 0 res y.world y.trace
  obtain ⟨evs, hevs, hq⟩ := beCapacity_trace y res c
  refine ⟨_, by rw [hevs, htr, List.append_assoc], ?_⟩
  intro e he
  rcases List.mem_append.mp he with he | he
  · rcases List.mem_append.mp he with he | he
    · obtain ⟨i, _, rfl⟩ := List.mem_map.mp he
      rfl
    · split at he
      · rw [List.mem_singleton] at he
        subst he
        rfl
      · cases he
  · rcases hq e he with h | h <;> subst h <;> rfl

/-- On every path `updateCapacity` returns `restarted = false` and a nil error. -/
theorem updateCapacity_result {σ : Type} (y : yarnClient σ) (res : ResourceList)
    (conf : List String) (now₁ now₂ : Time) :
    (updateCapacity y res conf now₁ now₂).restarted = false
      ∧ (updateCapacity y res conf now₁ now₂).err = none := by
  unfold updateCapacity
  simp only []
  split
  · exact ⟨rfl, rfl⟩
  · split
    · split
      · exact ⟨rfl, rfl⟩
      · exact ⟨rfl, rfl⟩
    · exact ⟨rfl, rfl⟩

/-- The calls recorded by `updateCapacity` hold no `StopNodemanager`. -/
theorem updateCapacity_emits_no_stop {σ : Type} (y : yarnClient σ) (res : ResourceList)
    (conf : List String) (now₁ now₂ : Time) :
    ∃ evs, (updateCapacity y res conf now₁ now₂).y.trace = y.trace ++ evs
      ∧ evs.countP Event.isStopNodemanager = 0 := by
  obtain ⟨evs, hevs, hq⟩ := beCapacity_emits_no_stop y res (decide (conf.length > 0))
  have hz : evs.countP Event.isStopNodemanager = 0 := countP_eq_zero_of_forall _ _ hq
  unfold updateCapacity
  simp only []
  split
  · exact ⟨evs ++ [Event.nodeResourceMetricsReset
        (beCapacity y res (decide (conf.length > 0))).res], by simp [hevs],
      by simp [List.countP_append, hz, Event.isStopNodemanager]⟩
  · split
    · split
      · exact ⟨evs ++ [Event.nodeResourceMetricsReset
            (beCapacity y res (decide (conf.length > 0))).res], by simp [hevs],
          by simp [List.countP_append, hz, Event.isStopNodemanager]⟩
      · exact ⟨evs ++ [Event.nodeResourceMetricsReset
            (beCapacity y res (decide (conf.length > 0))).res,
            Event.ensureCapacity (expectCap y.YarnConfig
              (beCapacity y res (decide (conf.length > 0))).res) conf false],
          by simp [hevs], by simp [List.countP_append, hz, Event.isStopNodemanager]⟩
    · exact ⟨evs ++ [Event.nodeResourceMetricsReset
          (beCapacity y res (decide (conf.length > 0))).res,
          Event.ensureCapacity (expectCap y.YarnConfig
            (beCapacity y res (decide (conf.length > 0))).res) conf true],
        by simp [hevs], by simp [List.countP_append, hz, Event.isStopNodemanager]⟩

/-- The calls recorded by `startAndCheckNMProcess` start with one status query and
hold no `StopNodemanager`. -/
theorem startAndCheckNMProcess_emits {σ : Type} (y : yarnClient σ) :
    ∃ evs, (startAndCheckNMProcess y).trace = y.trace ++ (Event.getStatus :: evs)
      ∧ (Event.getStatus :: evs).countP Event.isStopNodemanager = 0 := by
  cases h1 : (y.ginit.GetStatus y.world).1 with
  | error e => exact ⟨[], by simp [startAndCheckNMProcess, h1], by simp [Event.isStopNodemanager]⟩
  | ok running =>
    cases running with
    | true => exact ⟨[], by simp [startAndCheckNMProcess, h1], by simp [Event.isStopNodemanager]⟩
    | false =>
      cases h2 : (y.ginit.StartNodemanager (y.ginit.GetStatus y.world).2).1 with
      | some e =>
        exact ⟨[Event.startNodemanager], by simp [startAndCheckNMProcess, h1, h2],
          by simp [Event.isStopNodemanager]⟩
      | none =>
        cases h3 : (y.ginit.GetStatus
            (y.ginit.StartNodemanager (y.ginit.GetStatus y.world).2).2).1 with
        | error e =>
          exact ⟨[Event.startNodemanager, Event.sleep waiting, Event.getStatus],
            by simp [startAndCheckNMProcess, h1, h2, h3], by simp [Event.isStopNodemanager]⟩
        | ok running2 =>
          cases running2 with
          | true =>
            exact ⟨[Event.startNodemanager, Event.sleep waiting, Event.getStatus],
              by simp [startAndCheckNMProcess, h1, h2, h3], by simp [Event.isStopNodemanager]⟩
          | false =>
            exact ⟨[Event.startNodemanager, Event.sleep waiting, Event.getStatus,
                Event.sendAlarm notRunningMsg],
              by simp [startAndCheckNMProcess, h1, h2, h3], by simp [Event.isStopNodemanager]⟩

/-- C11: for every allocation, every list of conflicting resources, every clock
and every control plane and adapter list, `updateCapacity` returns
`restarted = false` and a nil error. Hence `AdaptAndUpdateOfflineResource`
returns a nil error, ends in the state that one run of `startAndCheckNMProcess`
reaches from the state `updateCapacity` left, and records no `StopNodemanager`
among its calls; the answers of `EnsureCapacity`, of the status query and of
the start command are arbitrary, failures included. -/
theorem AdaptAndUpdateOfflineResource_no_restart {σ : Type} (y : yarnClient σ)
    (offlineList : ResourceList) (conflictingResources : List String) (now₁ now₂ : Time) :
    (updateCapacity y offlineList conflictingResources now₁ now₂).restarted = false
      ∧ (updateCapacity y offlineList conflictingResources now₁ now₂).err = none
      ∧ (AdaptAndUpdateOfflineResource y offlineList conflictingResources now₁ now₂).1 = none
      ∧ (AdaptAndUpdateOfflineResource y offlineList conflictingResources now₁ now₂).2
          = startAndCheckNMProcess
              (updateCapacity y offlineList conflictingResources now₁ now₂).y
      ∧ (emitted y.trace
          (AdaptAndUpdateOfflineResource y offlineList conflictingResources now₁ now₂).2.trace
          ).countP Event.isStopNodemanager = 0 := by
  obtain ⟨hr, he⟩ := updateCapacity_result y offlineList conflictingResources now₁ now₂
  have hstate : (AdaptAndUpdateOfflineResource y offlineList conflictingResources now₁ now₂).2
      = startAndCheckNMProcess
          (updateCapacity y offlineList conflictingResources now₁ now₂).y := by
    simp [AdaptAndUpdateOfflineResource, hr, he]
  refine ⟨hr, he, rfl, hstate, ?_⟩
  obtain ⟨evs, hevs, hz⟩ :=
    updateCapacity_emits_no_stop y offlineList conflictingResources now₁ now₂
  obtain ⟨evs₂, hevs₂, hz₂⟩ := startAndCheckNMProcess_emits
    (updateCapacity y offlineList conflictingResources now₁ now₂).y
  rw [hstate, hevs₂, hevs, List.append_assoc, emitted_append, List.countP_append, hz, hz₂]

end Caelus
